import Mathlib

/-!
Shallow embedding of `tgma_memory_engine.py` (TGMA Chronos Memory Engine).

Modelling conventions:
* The SQLite database is a `DBState`: the `chat_logs` table is a `List ChatTurn`
  in insertion (rowid) order, the `summaries` table is an association list keyed
  by the date string.
* `AUTOINCREMENT` row ids are modelled as 0-based insertion positions; only their
  uniqueness and monotonicity are observable.
* Timestamps are epoch seconds (`Int`, as produced by `int(time.time())`).  All
  `datetime` conversions (`fromtimestamp`, `strptime(...).timestamp()`, `.date()`)
  are modelled in UTC; Python uses the process-local timezone, which only shifts
  every conversion by the same constant.
* `ORDER BY timestamp ASC` is modelled as a stable insertion sort over the
  insertion-ordered row list, i.e. ties are broken by rowid.
* The language-model call `fake_llm` is an external collaborator (the demo stub
  is not part of the specified core); it is passed in as `llm : String → Option
  String`, where `none` models a raised exception propagating out of `await
  fake_llm(...)`.
-/

/-- Two-digit zero padding, as in `strftime` fields `%H`, `%M`, `%m`, `%d`. -/
def pad2 (n : Nat) : String :=
  if n < 10 then "0" ++ toString n else toString n

/-- Gregorian leap-year test. -/
def isLeap (y : Int) : Bool :=
  (Int.emod y 4 == 0 && Int.emod y 100 != 0) || Int.emod y 400 == 0

/-- Number of days in month `m` of year `y`. -/
def daysInMonth (y : Int) (m : Nat) : Nat :=
  if m = 2 then (if isLeap y then 29 else 28)
  else if m = 4 ∨ m = 6 ∨ m = 9 ∨ m = 11 then 30
  else 31

/-- Civil date `(year, month, day)` of day number `z` (days since 1970-01-01),
the standard days-to-civil algorithm. -/
def civilFromDays (z : Int) : Int × Nat × Nat :=
  let z' := z + 719468
  let era := Int.fdiv z' 146097
  let doe := (z' - era * 146097).toNat
  let yoe := (doe - doe / 1460 + doe / 36524 - doe / 146096) / 365
  let y := (yoe : Int) + era * 400
  let doy := doe - (365 * yoe + yoe / 4 - yoe / 100)
  let mp := (5 * doy + 2) / 153
  let d := doy - (153 * mp + 2) / 5 + 1
  let m := if mp < 10 then mp + 3 else mp - 9
  (if m ≤ 2 then y + 1 else y, m, d)

/-- Day number (days since 1970-01-01) of civil date `y-m-d`, the standard
civil-to-days algorithm. -/
def daysFromCivil (y : Int) (m d : Nat) : Int :=
  let yAdj := if m ≤ 2 then y - 1 else y
  let era := Int.fdiv yAdj 400
  let yoe := (yAdj - era * 400).toNat
  let mp := if 2 < m then m - 3 else m + 9
  let doy := (153 * mp + 2) / 5 + d - 1
  let doe := yoe * 365 + yoe / 4 - yoe / 100 + doy
  era * 146097 + (doe : Int) - 719468

/-- Day number of an epoch timestamp (floor division, so negative epochs work). -/
def dayIndex (ts : Int) : Int := Int.fdiv ts 86400

/-- Second-of-day of an epoch timestamp. -/
def secOfDay (ts : Int) : Nat := (Int.fmod ts 86400).toNat

/-- `strftime("%H:%M")` of a timestamp. -/
def fmtHM (ts : Int) : String :=
  pad2 (secOfDay ts / 3600) ++ ":" ++ pad2 (secOfDay ts % 3600 / 60)

/-- `strftime("%m-%d %H:%M")` of a timestamp. -/
def fmtMDHM (ts : Int) : String :=
  let c := civilFromDays (dayIndex ts)
  pad2 c.2.1 ++ "-" ++ pad2 c.2.2 ++ " " ++ fmtHM ts

/-- `strftime("%Y年%m月%d日")` of a timestamp (the Historian's date key). -/
def fmtDateCN (ts : Int) : String :=
  let c := civilFromDays (dayIndex ts)
  toString c.1 ++ "年" ++ pad2 c.2.1 ++ "月" ++ pad2 c.2.2 ++ "日"

/-- Numeric value of an ASCII digit. -/
def digitVal (c : Char) : Nat := c.toNat - 48

/-- `datetime.strptime(s, "%Y-%m-%d")`, restricted to the zero-padded 10-character
shape `YYYY-MM-DD` (the only shape reaching it from the recall regex): `none`
models the raised `ValueError`.  Month and day ranges are validated exactly as
CPython does (month 1–12, day 1–days-in-month, year ≥ 1). -/
def parseDate (s : String) : Option (Int × Nat × Nat) :=
  match s.data with
  | [y1, y2, y3, y4, s1, m1, m2, s2, d1, d2] =>
    if y1.isDigit && y2.isDigit && y3.isDigit && y4.isDigit &&
       s1 = '-' && m1.isDigit && m2.isDigit && s2 = '-' && d1.isDigit && d2.isDigit then
      let y : Nat := 1000 * digitVal y1 + 100 * digitVal y2 + 10 * digitVal y3 + digitVal y4
      let mo : Nat := 10 * digitVal m1 + digitVal m2
      let d : Nat := 10 * digitVal d1 + digitVal d2
      if 1 ≤ y ∧ 1 ≤ mo ∧ mo ≤ 12 ∧ 1 ≤ d ∧ d ≤ daysInMonth (y : Int) mo then
        some ((y : Int), mo, d)
      else none
    else none
  | _ => none

/-- `int(datetime.strptime(s, "%Y-%m-%d").timestamp())` (UTC model). -/
def parseDateEpoch (s : String) : Option Int :=
  (parseDate s).map (fun c => 86400 * daysFromCivil c.1 c.2.1 c.2.2)

/-- Python whitespace test used by `str.strip` (ASCII subset; the prompts
stripped here contain no exotic Unicode whitespace at their edges). -/
def isPySpace (c : Char) : Bool :=
  c = ' ' || c = '\t' || c = '\n' || c = '\r' || c = Char.ofNat 11 || c = Char.ofNat 12

/-- Python `str.strip()`. -/
def pyStrip (s : String) : String :=
  String.mk (((s.data.dropWhile isPySpace).reverse.dropWhile isPySpace).reverse)

/-- Character-list prefix test. -/
def startsWithCL : List Char → List Char → Bool
  | [], _ => true
  | _ :: _, [] => false
  | a :: as, b :: bs => a = b && startsWithCL as bs

/-- Character-list substring test. -/
def containsCL (needle : List Char) : List Char → Bool
  | [] => needle.isEmpty
  | c :: rest => startsWithCL needle (c :: rest) || containsCL needle rest

/-- Python `needle in hay` on strings (substring containment). -/
def containsSub (hay needle : String) : Bool := containsCL needle.data hay.data

/-- One row of the `chat_logs` table. -/
structure ChatTurn where
  id : Nat
  user_id : String
  role : String
  content : String
  timestamp : Int
  summarized : Bool
deriving Repr, DecidableEq

/-- The persistent database: `chat_logs` in insertion (rowid) order plus the
`summaries` table. -/
structure DBState where
  logs : List ChatTurn
  summaries : List (String × String)
deriving Repr, DecidableEq

/-- The freshly initialised database (`AsyncDB.init`). -/
def emptyDB : DBState := ⟨[], []⟩

/-- One entry of the ephemeral conversation context. -/
structure Msg where
  role : String
  content : String
deriving Repr, DecidableEq

/-- `SUMMARIZE_THRESHOLD = 30`. -/
def SUMMARIZE_THRESHOLD : Nat := 30

/-- `DEFAULT_USER = "Standard_User"`. -/
def DEFAULT_USER : String := "Standard_User"

/-- `AsyncDB.add_chat`: insert a row with the next id and the current timestamp. -/
def add_chat (st : DBState) (user_id role content : String) (now : Int) : DBState :=
  { st with logs := st.logs ++ [⟨st.logs.length, user_id, role, content, now, false⟩] }

/-- Insert a turn into a timestamp-sorted list, before all strictly later turns
and after all earlier-or-equal ones (stability step of the `ORDER BY` model). -/
def insertTs (t : ChatTurn) : List ChatTurn → List ChatTurn
  | [] => [t]
  | x :: xs => if x.timestamp < t.timestamp then x :: insertTs t xs else t :: x :: xs

/-- Stable sort by ascending timestamp (`ORDER BY timestamp ASC`, ties in rowid
order). -/
def sortTs : List ChatTurn → List ChatTurn
  | [] => []
  | x :: xs => insertTs x (sortTs xs)

/-- `AsyncDB.get_unsummarized_logs`: this user's rows with `summarized = 0`,
oldest first. -/
def get_unsummarized_logs (st : DBState) (user_id : String) : List ChatTurn :=
  sortTs (st.logs.filter (fun t => t.user_id = user_id && !t.summarized))

/-- Flag update applied to one row by `mark_summarized`. -/
def markT (ids : List Nat) (t : ChatTurn) : ChatTurn :=
  if t.id ∈ ids then { t with summarized := true } else t

/-- `AsyncDB.mark_summarized`: set `summarized = 1` on every row whose id is in
`ids`. -/
def mark_summarized (st : DBState) (ids : List Nat) : DBState :=
  { st with logs := st.logs.map (markT ids) }

/-- `AsyncDB.save_summary`: `INSERT OR REPLACE` keyed by the date string. -/
def save_summary (st : DBState) (date_str content : String) : DBState :=
  { st with summaries := st.summaries.filter (fun p => p.1 ≠ date_str) ++ [(date_str, content)] }

/-- `AsyncDB.get_logs_by_date` after the date has been parsed to epoch second
`s`: all rows (any user!) with `s ≤ timestamp < s + 86400`, oldest first. -/
def logs_in_window (st : DBState) (s : Int) : List ChatTurn :=
  sortTs (st.logs.filter (fun t => s ≤ t.timestamp && t.timestamp < s + 86400))

/-- `AsyncDB.get_recent_history`: this user's `limit` newest rows, newest first
(`ORDER BY timestamp DESC LIMIT ?`). -/
def get_recent_history (st : DBState) (user_id : String) (limit : Nat) : List ChatTurn :=
  ((sortTs (st.logs.filter (fun t => t.user_id = user_id))).reverse).take limit

/-- `get_formatted_history`: the `limit` newest rows, oldest first, each tagged
`[HH:MM]` if on today's calendar date and `[MM-DD HH:MM]` otherwise. -/
def get_formatted_history (st : DBState) (user_id : String) (limit : Nat) (now : Int) : List Msg :=
  ((get_recent_history st user_id limit).reverse).map (fun row =>
    let tag := if dayIndex row.timestamp = dayIndex now then fmtHM row.timestamp
               else fmtMDHM row.timestamp
    ⟨row.role, "[" ++ tag ++ "] " ++ row.content⟩)

/-- The no-event sentinel marker `[NO_EVENT]`. -/
def noEventMark : String := "[NO_EVENT]"

/-- One transcript line of the Historian prompt:
`f"[{HH:MM}] {log['role']}: {log['content']}"`. -/
def historianLine (log : ChatTurn) : String :=
  "[" ++ fmtHM log.timestamp ++ "] " ++ log.role ++ ": " ++ log.content

/-- The Historian prompt built in `run_historian_ai` (f-string, then `.strip()`). -/
def historianPrompt (date_str : String) (logs : List ChatTurn) : String :=
  pyStrip ("你是冷静的第三方史官。\n任务：将聊天记录浓缩为客观事实，用于 AI 的长期记忆。\n规则：\n1. 每条事实必须以 [日期+模糊时段] 开头。\n2. 使用第三人称描述事件（Master，AI）。\n3. 只记录核心信息，无内容则回复 [NO_EVENT]。\n\n日期锚点：" ++ date_str ++ "\n原始记录：\n" ++ String.intercalate "\n" (logs.map historianLine))

/-- `run_historian_ai(logs)`: anchor the batch at the earliest turn's calendar
date, ask the llm for a summary, save it unless the result contains
`[NO_EVENT]`, then mark every batch row summarized.  Result: database state
after the coroutine together with `true` when it completed normally; a failing
llm call (`none`) raises, leaving the state it had at the raise point (no DB
write precedes the llm call) and yielding `false`. -/
def run_historian_ai (st : DBState) (llm : String → Option String) (logs : List ChatTurn) :
    DBState × Bool :=
  match logs with
  | [] => (st, true)
  | l0 :: _ =>
    let date_str := fmtDateCN l0.timestamp
    match llm (historianPrompt date_str logs) with
    | none => (st, false)
    | some summary =>
      let st1 := if containsSub summary noEventMark then st else save_summary st date_str summary
      (mark_summarized st1 (logs.map (fun l => l.id)), true)

/-- Python list slice `logs[:-2]`: everything but the final two elements. -/
def pySliceToMinus2 (l : List α) : List α := l.take (l.length - 2)

/-- `try_summarize(user_id)`: when at least `SUMMARIZE_THRESHOLD + 2`
unsummarized rows exist, compact all but the newest two. -/
def try_summarize (st : DBState) (llm : String → Option String) (user_id : String) :
    DBState × Bool :=
  let logs := get_unsummarized_logs st user_id
  if SUMMARIZE_THRESHOLD + 2 ≤ logs.length then
    run_historian_ai st llm (pySliceToMinus2 logs)
  else (st, true)

/-- The fixed no-record sentinel returned for an empty day. -/
def noRecordSentinel : String := "（未发现当天的原始记录）"

/-- One transcript line of the Investigator prompt: `f"{log['role']}: {log['content']}"`. -/
def investigatorLine (log : ChatTurn) : String := log.role ++ ": " ++ log.content

/-- The Investigator prompt built in `internal_memory_recall` (f-string, then `.strip()`). -/
def investigatorPrompt (query : String) (logs : List ChatTurn) : String :=
  pyStrip ("你是一个严谨的记忆调查员。\n任务：根据提供的【原始日志】回答用户的疑问。\n规则：\n1. 只能根据提供的日志内容回答，禁止自行推理或编造。\n2. 如果日志中找不到相关细节，请明确回复：“相关记忆已模糊，未发现匹配细节”。\n\n用户疑问：" ++ query ++ "\n【原始日志内容】：\n" ++ String.intercalate "\n" (logs.map investigatorLine))

/-- Result of the Investigator: the answer (`none` models a raised exception)
and the list of prompts it sent to the reasoning step. -/
structure RecallResult where
  answer : Option String
  llmPrompts : List String
deriving Repr, DecidableEq

/-- `internal_memory_recall(date_str, query)`: parse the date (a `ValueError`
raises), fetch that day's rows across all users, answer with the fixed sentinel
when the day is empty, otherwise ask the reasoning step. -/
def internal_memory_recall (st : DBState) (llm : String → Option String)
    (date_str query : String) : RecallResult :=
  match parseDateEpoch date_str with
  | none => ⟨none, []⟩
  | some s =>
    let logs := logs_in_window st s
    if logs.isEmpty then ⟨some noRecordSentinel, []⟩
    else
      let prompt := investigatorPrompt query logs
      ⟨llm prompt, [prompt]⟩

/-- Consume an expected single character. -/
def expectChar (c : Char) : List Char → Option (List Char)
  | [] => none
  | x :: xs => if x = c then some xs else none

/-- Consume an expected literal character sequence. -/
def dropLit : List Char → List Char → Option (List Char)
  | [], cs => some cs
  | l :: ls, c :: cs => if c = l then dropLit ls cs else none
  | _ :: _, [] => none

/-- Consume exactly `n` ASCII digits (Python's `\d` also matches other Unicode
digits; none occur in the claims). -/
def takeDigits : Nat → List Char → Option (List Char × List Char)
  | 0, cs => some ([], cs)
  | n + 1, c :: cs =>
    if c.isDigit then (takeDigits n cs).bind (fun p => some (c :: p.1, p.2)) else none
  | _ + 1, [] => none

/-- The lazy tail `(.*?)\]` of the recall pattern: the characters strictly
before the first `]`, failing if a newline (which `.` does not match) or the
end of input comes first. -/
def matchQueryCL : List Char → Option (List Char)
  | [] => none
  | c :: cs =>
    if c = ']' then some []
    else if c = '\n' then none
    else (matchQueryCL cs).map (fun q => c :: q)

/-- Match `\[RECALL\|(\d{4}-\d{2}-\d{2})\|(.*?)\]` anchored at the head of the
character list, returning the two capture groups. -/
def matchRecallAt (cs : List Char) : Option (String × String) := do
  let cs1 ← dropLit ("[RECALL|".data) cs
  let (y, cs2) ← takeDigits 4 cs1
  let cs3 ← expectChar '-' cs2
  let (mo, cs4) ← takeDigits 2 cs3
  let cs5 ← expectChar '-' cs4
  let (d, cs6) ← takeDigits 2 cs5
  let cs7 ← expectChar '|' cs6
  let q ← matchQueryCL cs7
  pure (String.mk (y ++ '-' :: (mo ++ '-' :: d)), String.mk q)

/-- Scan left to right for the first position where the recall pattern matches. -/
def searchRecallAux : List Char → Option (String × String)
  | [] => none
  | c :: rest =>
    match matchRecallAt (c :: rest) with
    | some r => some r
    | none => searchRecallAux rest

/-- `re.search(r"\[RECALL\|(\d{4}-\d{2}-\d{2})\|(.*?)\]", reply)`, returning the
captured `(date, query)` of the leftmost match. -/
def searchRecall (s : String) : Option (String × String) := searchRecallAux s.data

/-- The context sent to the first reasoning call: the rendered recent history
plus the raw user input (`messages` in `think_and_reply`). -/
def buildMessages (st : DBState) (user_id user_input : String) (now : Int) : List Msg :=
  get_formatted_history st user_id 30 now ++ [⟨"user", user_input⟩]

/-- `"\n".join(m["content"] for m in messages)`. -/
def joinContents (ms : List Msg) : String :=
  String.intercalate "\n" (ms.map (fun m => m.content))

/-- The system entry injected after a recall:
`f"【打捞结果汇报】：\n{evidence}\n请结合此结果对用户做出最终回复。"`. -/
def recallReport (evidence : String) : String :=
  "【打捞结果汇报】：\n" ++ evidence ++ "\n请结合此结果对用户做出最终回复。"

/-- Result of one `think_and_reply` call: the database state afterwards, the
returned reply (`none` models an exception escaping the coroutine), the
Investigator invocations `(date, query)`, and the prompts of the
orchestrator-level reasoning calls. -/
structure TurnResult where
  state : DBState
  reply : Option String
  recalls : List (String × String)
  prompts : List String
deriving Repr, DecidableEq

/-- `think_and_reply(user_input, user_id)`: record the input, render history,
reason once, honor at most one `[RECALL|date|query]` directive by recalling and
reasoning a second time, record and return the final reply.  Both inserted rows
carry the turn's clock reading `now`. -/
def think_and_reply (st : DBState) (llm : String → Option String) (now : Int)
    (user_input user_id : String) : TurnResult :=
  let st1 := add_chat st user_id "user" user_input now
  let messages := buildMessages st1 user_id user_input now
  let p1 := joinContents messages
  match llm p1 with
  | none => ⟨st1, none, [], [p1]⟩
  | some reply1 =>
    match searchRecall reply1 with
    | none => ⟨add_chat st1 user_id "assistant" reply1 now, some reply1, [], [p1]⟩
    | some dq =>
      match (internal_memory_recall st1 llm dq.1 dq.2).answer with
      | none => ⟨st1, none, [dq], [p1]⟩
      | some evidence =>
        let p2 := joinContents (messages ++ [⟨"assistant", reply1⟩, ⟨"system", recallReport evidence⟩])
        match llm p2 with
        | none => ⟨st1, none, [dq], [p1, p2]⟩
        | some reply2 =>
          ⟨add_chat st1 user_id "assistant" reply2 now, some reply2, [dq], [p1, p2]⟩

/-- One iteration of the demo `main` loop: run the turn, then (only after the
reply has been produced and printed) run the Historian trigger check for
`DEFAULT_USER`.  Result: the turn's reply, the final database state, and
whether the iteration completed without an exception. -/
def main_turn (st : DBState) (llm : String → Option String) (now : Int) (input : String) :
    Option String × DBState × Bool :=
  let r := think_and_reply st llm now input DEFAULT_USER
  match r.reply with
  | none => (none, r.state, false)
  | some rep =>
    let c := try_summarize r.state llm DEFAULT_USER
    (some rep, c.1, c.2)

/-- Database states reachable by the program: the initialised empty database,
closed under recording a turn (`add_chat`, the only insert) and the Historian
trigger (`try_summarize`, the only code path that flips `summarized` or writes
summaries; a raised llm exception leaves the state of the raise point). -/
inductive Reachable : DBState → Prop
  | init : Reachable emptyDB
  | add (st : DBState) (u role content : String) (now : Int) :
      Reachable st → Reachable (add_chat st u role content now)
  | compact (st : DBState) (llm : String → Option String) (u : String) :
      Reachable st → Reachable (try_summarize st llm u).1

/-- 32 unsummarized turns for `DEFAULT_USER` at distinct increasing timestamps. -/
def sample32 : DBState :=
  ⟨(List.range 32).map (fun i => ⟨i, DEFAULT_USER, "user", "m", 1000 + (i : Int), false⟩), []⟩

/-- Concrete reasoning stub for the C4 witness: emits a recall directive on the
first (history) prompt and another directive on the post-recall prompt. -/
def c4llm : String → Option String :=
  fun p => if containsSub p "【打捞结果汇报】" then some "[RECALL|2027-01-01|dogs]"
           else some "[RECALL|2026-02-26|cats]"

/-- Concrete reasoning stub for the C5 counterexample: always answers with a
directive whose query contains a pipe. -/
def c5llm : String → Option String := fun _ => some "[RECALL|2026-02-26|a|b]"

/-- Concrete reasoning stub: emits a regex-shaped directive whose digit-shaped
date is not a valid calendar date. -/
def c6llm : String → Option String := fun _ => some "[RECALL|2026-13-45|x]"

/-- Concrete reasoning stub for the C6 witness: the spec's malformed-directive
scenario output. -/
def c6llmOk : String → Option String := fun _ => some "[RECALL|26-02-2026|cats]"

/-- A total reasoning stub with a plain, directive-free answer. -/
def llmOk : String → Option String := fun _ => some "ok"

/-- Number of this user's rows in the Log Store. -/
def totalTurns (st : DBState) (u : String) : Nat :=
  st.logs.countP (fun t => t.user_id = u)

/-- Number of this user's rows with the compacted flag still unset. -/
def uncompactedCount (st : DBState) (u : String) : Nat :=
  st.logs.countP (fun t => t.user_id = u && !t.summarized)

/-- Row-id sanity maintained by `AUTOINCREMENT`: every id is below the row
count and ids are pairwise distinct. -/
def idsOK (st : DBState) : Prop :=
  (∀ t ∈ st.logs, t.id < st.logs.length) ∧ (st.logs.map (fun t => t.id)).Nodup

/-- A reachable two-turn state: one recorded user/assistant exchange. -/
def reachablePair : DBState := add_chat (add_chat emptyDB "u" "user" "hi" 0) "u" "assistant" "ok" 1

example : pad2 3 = "03" := by decide
example : fmtHM 3661 = "01:01" := rfl
example : parseDateEpoch "2099-01-01" = some 4070908800 := rfl
example : parseDate "2026-13-45" = none := rfl
example : parseDate "26-02-2026" = none := rfl
example : fmtDateCN 1000 = "1970年01月01日" := rfl
example : containsSub "abc [NO_EVENT] xyz" "[NO_EVENT]" = true := rfl
example : containsSub "abc" "[NO_EVENT]" = false := rfl
example : pyStrip "  hi there\n" = "hi there" := rfl

example : searchRecall "[RECALL|2026-02-26|cats]" = some ("2026-02-26", "cats") := rfl
example : searchRecall "[RECALL|26-02-2026|cats]" = none := rfl
example : searchRecall "hello there" = none := rfl
example : searchRecall "xx [RECALL|2026-02-26|a|b] yy" = some ("2026-02-26", "a|b") := rfl
example : searchRecall "[RECALL|2026-02-26|cats" = none := rfl
example : searchRecall "[RECALL|2026-02-26|a\nb]" = none := rfl
example : searchRecall "[RECALL|2026-13-45|x]" = some ("2026-13-45", "x") := rfl

theorem insertTs_perm (t : ChatTurn) (l : List ChatTurn) :
    List.Perm (insertTs t l) (t :: l) := by
  induction l with
  | nil => exact List.Perm.refl _
  | cons x xs ih =>
    unfold insertTs
    by_cases h : x.timestamp < t.timestamp
    · rw [if_pos h]
      exact ((List.Perm.cons x ih).trans (List.Perm.swap t x xs))
    · rw [if_neg h]

theorem sortTs_perm (l : List ChatTurn) : List.Perm (sortTs l) l := by
  induction l with
  | nil => exact List.Perm.refl _
  | cons x xs ih => exact (insertTs_perm x (sortTs xs)).trans (List.Perm.cons x ih)

theorem mark_summarized_logs (st : DBState) (ids : List Nat) :
    (mark_summarized st ids).logs = st.logs.map (markT ids) := rfl

theorem mark_summarized_summaries (st : DBState) (ids : List Nat) :
    (mark_summarized st ids).summaries = st.summaries := rfl

theorem save_summary_logs (st : DBState) (d c : String) :
    (save_summary st d c).logs = st.logs := rfl

theorem add_chat_summaries (st : DBState) (u r c : String) (n : Int) :
    (add_chat st u r c n).summaries = st.summaries := rfl

theorem markT_id (ids : List Nat) (t : ChatTurn) : (markT ids t).id = t.id := by
  unfold markT; by_cases h : t.id ∈ ids <;> simp [h]

theorem markT_user (ids : List Nat) (t : ChatTurn) : (markT ids t).user_id = t.user_id := by
  unfold markT; by_cases h : t.id ∈ ids <;> simp [h]

theorem marked_of_mem_ids (st : DBState) (ids : List Nat) :
    ∀ t ∈ (mark_summarized st ids).logs, t.id ∈ ids → t.summarized = true := by
  intro t ht hid
  rw [mark_summarized_logs] at ht
  obtain ⟨t0, _, rfl⟩ := List.mem_map.mp ht
  unfold markT at hid ⊢
  by_cases h : t0.id ∈ ids
  · simp [h]
  · simp [h] at hid

theorem run_historian_eq (st : DBState) (llm : String → Option String)
    (l0 : ChatTurn) (rest : List ChatTurn) (out : String)
    (hllm : llm (historianPrompt (fmtDateCN l0.timestamp) (l0 :: rest)) = some out) :
    run_historian_ai st llm (l0 :: rest) =
      (mark_summarized
        (if containsSub out noEventMark then st
         else save_summary st (fmtDateCN l0.timestamp) out)
        ((l0 :: rest).map (fun l => l.id)), true) := by
  simp only [run_historian_ai, hllm]

/-- **C9.**  For every date with no stored turns in that date's 24-hour window,
`internal_memory_recall` returns the fixed no-record sentinel and never invokes
the reasoning step. -/
theorem c9_empty_day_sentinel (st : DBState) (llm : String → Option String)
    (date query : String) (s : Int)
    (hparse : parseDateEpoch date = some s)
    (hempty : ∀ t ∈ st.logs, ¬(s ≤ t.timestamp ∧ t.timestamp < s + 86400)) :
    internal_memory_recall st llm date query = ⟨some noRecordSentinel, []⟩ := by
  have hfil : st.logs.filter (fun t => s ≤ t.timestamp && t.timestamp < s + 86400) = [] := by
    rw [List.filter_eq_nil_iff]
    intro t ht
    have := hempty t ht
    simp only [Bool.and_eq_true, decide_eq_true_eq]
    tauto
  have hwin : logs_in_window st s = [] := by unfold logs_in_window; rw [hfil]; rfl
  simp only [internal_memory_recall, hparse, hwin, List.isEmpty_nil, if_pos]

theorem c9_witness :
    parseDateEpoch "2099-01-01" = some 4070908800 ∧
    internal_memory_recall emptyDB (fun _ => some "x") "2099-01-01" "anything" =
      ⟨some noRecordSentinel, []⟩ :=
  ⟨rfl, c9_empty_day_sentinel emptyDB (fun _ => some "x") "2099-01-01" "anything"
    4070908800 rfl (by intro t ht; simp [emptyDB] at ht)⟩

/-- **C8.**  When the reasoning step of a compaction run succeeds: if the
no-event sentinel appears in the result, no Summary is written, yet every batch
turn is still marked compacted; if it is absent, the Summary is written (keyed
to the batch anchor date) and every batch turn is marked — marking happens
regardless of the sentinel outcome. -/
theorem c8_sentinel_discard_still_marks (st : DBState) (llm : String → Option String)
    (l0 : ChatTurn) (rest : List ChatTurn) (out : String)
    (hllm : llm (historianPrompt (fmtDateCN l0.timestamp) (l0 :: rest)) = some out) :
    (run_historian_ai st llm (l0 :: rest)).2 = true ∧
    (∀ t ∈ (run_historian_ai st llm (l0 :: rest)).1.logs,
        t.id ∈ (l0 :: rest).map (fun l => l.id) → t.summarized = true) ∧
    (containsSub out noEventMark = true →
        (run_historian_ai st llm (l0 :: rest)).1.summaries = st.summaries) ∧
    (containsSub out noEventMark = false →
        (run_historian_ai st llm (l0 :: rest)).1.summaries =
          (save_summary st (fmtDateCN l0.timestamp) out).summaries) := by
  rw [run_historian_eq st llm l0 rest out hllm]
  refine ⟨rfl, ?_, ?_, ?_⟩
  · intro t ht hid
    exact marked_of_mem_ids _ _ t ht hid
  · intro hc
    rw [mark_summarized_summaries, if_pos hc]
  · intro hc
    rw [mark_summarized_summaries, if_neg (by rw [hc]; exact Bool.false_ne_true)]

theorem c8_witness :
    ((fun _ => some "[NO_EVENT]") : String → Option String)
        (historianPrompt (fmtDateCN 0) [⟨0, "u", "user", "hi", 0, false⟩]) = some "[NO_EVENT]" ∧
    ((run_historian_ai emptyDB (fun _ => some "[NO_EVENT]") [⟨0, "u", "user", "hi", 0, false⟩]).2 = true ∧
     (∀ t ∈ (run_historian_ai emptyDB (fun _ => some "[NO_EVENT]") [⟨0, "u", "user", "hi", 0, false⟩]).1.logs,
        t.id ∈ [⟨0, "u", "user", "hi", 0, false⟩].map (fun l : ChatTurn => l.id) → t.summarized = true) ∧
     (containsSub "[NO_EVENT]" noEventMark = true →
        (run_historian_ai emptyDB (fun _ => some "[NO_EVENT]") [⟨0, "u", "user", "hi", 0, false⟩]).1.summaries =
          emptyDB.summaries) ∧
     (containsSub "[NO_EVENT]" noEventMark = false →
        (run_historian_ai emptyDB (fun _ => some "[NO_EVENT]") [⟨0, "u", "user", "hi", 0, false⟩]).1.summaries =
          (save_summary emptyDB (fmtDateCN 0) "[NO_EVENT]").summaries)) :=
  ⟨rfl, c8_sentinel_discard_still_marks emptyDB (fun _ => some "[NO_EVENT]")
    ⟨0, "u", "user", "hi", 0, false⟩ [] "[NO_EVENT]" rfl⟩

theorem pySliceToMinus2_length (l : List α) : (pySliceToMinus2 l).length = l.length - 2 := by
  unfold pySliceToMinus2
  rw [List.length_take]
  omega

/-- **C7.**  If the reasoning-step invocation of a compaction attempt fails,
the whole attempt aborts atomically: the database is exactly the input state
(no Summary row, no compacted marks), so the same batch remains eligible for a
future attempt. -/
theorem c7_reasoning_failure_atomic (st : DBState) (llm : String → Option String) (u : String)
    (hlen : SUMMARIZE_THRESHOLD + 2 ≤ (get_unsummarized_logs st u).length)
    (hfail : ∀ p, llm p = none) :
    try_summarize st llm u = (st, false) ∧
    get_unsummarized_logs (try_summarize st llm u).1 u = get_unsummarized_logs st u := by
  have h1 : try_summarize st llm u = (st, false) := by
    unfold try_summarize
    rw [if_pos hlen]
    have hne : (pySliceToMinus2 (get_unsummarized_logs st u)).length =
        (get_unsummarized_logs st u).length - 2 := pySliceToMinus2_length _
    cases hb : pySliceToMinus2 (get_unsummarized_logs st u) with
    | nil =>
      rw [hb] at hne
      simp only [List.length_nil] at hne
      unfold SUMMARIZE_THRESHOLD at hlen
      omega
    | cons l0 rest =>
      simp only [run_historian_ai, hfail]
  exact ⟨h1, by rw [h1]⟩

theorem c7_witness :
    SUMMARIZE_THRESHOLD + 2 ≤ (get_unsummarized_logs sample32 DEFAULT_USER).length ∧
    try_summarize sample32 (fun _ => none) DEFAULT_USER = (sample32, false) ∧
    get_unsummarized_logs (try_summarize sample32 (fun _ => none) DEFAULT_USER).1 DEFAULT_USER =
      get_unsummarized_logs sample32 DEFAULT_USER :=
  ⟨by decide, (c7_reasoning_failure_atomic sample32 (fun _ => none) DEFAULT_USER (by decide)
      (fun _ => rfl)).1,
    (c7_reasoning_failure_atomic sample32 (fun _ => none) DEFAULT_USER (by decide)
      (fun _ => rfl)).2⟩

/-- **C2.**  With exactly 32 uncompacted turns the trigger fires: the batch is
the 30 oldest uncompacted turns (all but the last 2), every batch turn is
marked compacted, and a Summary is written keyed to the earliest batch turn's
calendar date unless the result contains the no-event sentinel; with 31 or
fewer uncompacted turns the trigger is a no-op. -/
theorem c2_threshold_batch_summary (st : DBState) (llm : String → Option String)
    (u out : String) (b0 : ChatTurn)
    (hlen : (get_unsummarized_logs st u).length = 32)
    (hhead : (pySliceToMinus2 (get_unsummarized_logs st u)).head? = some b0)
    (hllm : llm (historianPrompt (fmtDateCN b0.timestamp)
        (pySliceToMinus2 (get_unsummarized_logs st u))) = some out) :
    pySliceToMinus2 (get_unsummarized_logs st u) = (get_unsummarized_logs st u).take 30 ∧
    (pySliceToMinus2 (get_unsummarized_logs st u)).length = 30 ∧
    (try_summarize st llm u).2 = true ∧
    (∀ t ∈ (try_summarize st llm u).1.logs,
        t.id ∈ (pySliceToMinus2 (get_unsummarized_logs st u)).map (fun l => l.id) →
          t.summarized = true) ∧
    (containsSub out noEventMark = true → (try_summarize st llm u).1.summaries = st.summaries) ∧
    (containsSub out noEventMark = false →
        (try_summarize st llm u).1.summaries =
          (save_summary st (fmtDateCN b0.timestamp) out).summaries) ∧
    (∀ st2 : DBState, (get_unsummarized_logs st2 u).length ≤ 31 →
        try_summarize st2 llm u = (st2, true)) := by
  have htake : pySliceToMinus2 (get_unsummarized_logs st u) =
      (get_unsummarized_logs st u).take 30 := by
    unfold pySliceToMinus2; rw [hlen]
  have hts : try_summarize st llm u =
      run_historian_ai st llm (pySliceToMinus2 (get_unsummarized_logs st u)) := by
    unfold try_summarize
    rw [if_pos (by rw [hlen]; unfold SUMMARIZE_THRESHOLD; omega)]
  obtain ⟨rest, hb⟩ : ∃ rest, pySliceToMinus2 (get_unsummarized_logs st u) = b0 :: rest := by
    cases hb2 : pySliceToMinus2 (get_unsummarized_logs st u) with
    | nil => rw [hb2] at hhead; simp at hhead
    | cons x rest =>
      rw [hb2] at hhead
      have hx : b0 = x := by
        simp only [List.head?_cons, Option.some.injEq] at hhead
        exact hhead.symm
      subst hx
      exact ⟨rest, rfl⟩
  have hrun := run_historian_eq st llm b0 rest out (hb ▸ hllm)
  rw [hb] at hts
  rw [hts, hrun]
  refine ⟨htake, ?_, rfl, ?_, ?_, ?_, ?_⟩
  · rw [pySliceToMinus2_length, hlen]
  · intro t ht hid
    rw [hb] at hid
    exact marked_of_mem_ids _ _ t ht hid
  · intro hc
    rw [mark_summarized_summaries, if_pos hc]
  · intro hc
    rw [mark_summarized_summaries, if_neg (by rw [hc]; exact Bool.false_ne_true)]
  · intro st2 h2
    unfold try_summarize
    rw [if_neg (by unfold SUMMARIZE_THRESHOLD; omega)]

theorem c2_witness :
    (get_unsummarized_logs sample32 DEFAULT_USER).length = 32 ∧
    (pySliceToMinus2 (get_unsummarized_logs sample32 DEFAULT_USER)).head? =
      some ⟨0, DEFAULT_USER, "user", "m", 1000, false⟩ ∧
    (pySliceToMinus2 (get_unsummarized_logs sample32 DEFAULT_USER) =
        (get_unsummarized_logs sample32 DEFAULT_USER).take 30 ∧
      (pySliceToMinus2 (get_unsummarized_logs sample32 DEFAULT_USER)).length = 30 ∧
      (try_summarize sample32 (fun _ => some "S") DEFAULT_USER).2 = true ∧
      (∀ t ∈ (try_summarize sample32 (fun _ => some "S") DEFAULT_USER).1.logs,
          t.id ∈ (pySliceToMinus2 (get_unsummarized_logs sample32 DEFAULT_USER)).map
              (fun l => l.id) → t.summarized = true) ∧
      (containsSub "S" noEventMark = true →
          (try_summarize sample32 (fun _ => some "S") DEFAULT_USER).1.summaries =
            sample32.summaries) ∧
      (containsSub "S" noEventMark = false →
          (try_summarize sample32 (fun _ => some "S") DEFAULT_USER).1.summaries =
            (save_summary sample32 (fmtDateCN (1000 : Int)) "S").summaries) ∧
      (∀ st2 : DBState, (get_unsummarized_logs st2 DEFAULT_USER).length ≤ 31 →
          try_summarize st2 (fun _ => some "S") DEFAULT_USER = (st2, true))) :=
  ⟨rfl, rfl, c2_threshold_batch_summary sample32 (fun _ => some "S") DEFAULT_USER "S"
    ⟨0, DEFAULT_USER, "user", "m", 1000, false⟩ rfl rfl rfl⟩

/-- **C4.**  When the first reasoning output carries a well-formed recall
directive: the Investigator is invoked exactly once with the extracted date and
query, the reasoning step runs a second time on the original context extended
with the first output (`assistant` entry) and the recall report (`system`
entry), and the second output is stored as the assistant turn and returned;
whatever the second output contains, no further recall happens (single hop). -/
theorem c4_directive_single_hop (st : DBState) (llm : String → Option String) (now : Int)
    (input uid reply1 d q evidence reply2 : String)
    (h1 : llm (joinContents (buildMessages (add_chat st uid "user" input now) uid input now)) =
      some reply1)
    (h2 : searchRecall reply1 = some (d, q))
    (h3 : (internal_memory_recall (add_chat st uid "user" input now) llm d q).answer =
      some evidence)
    (h4 : llm (joinContents (buildMessages (add_chat st uid "user" input now) uid input now ++
        [⟨"assistant", reply1⟩, ⟨"system", recallReport evidence⟩])) = some reply2) :
    think_and_reply st llm now input uid =
      ⟨add_chat (add_chat st uid "user" input now) uid "assistant" reply2 now,
       some reply2, [(d, q)],
       [joinContents (buildMessages (add_chat st uid "user" input now) uid input now),
        joinContents (buildMessages (add_chat st uid "user" input now) uid input now ++
          [⟨"assistant", reply1⟩, ⟨"system", recallReport evidence⟩])]⟩ := by
  simp only [think_and_reply, h1, h2, h3, h4]

theorem c4_witness :
    c4llm (joinContents (buildMessages (add_chat emptyDB "u" "user" "hi" 0) "u" "hi" 0)) =
      some "[RECALL|2026-02-26|cats]" ∧
    searchRecall "[RECALL|2026-02-26|cats]" = some ("2026-02-26", "cats") ∧
    (internal_memory_recall (add_chat emptyDB "u" "user" "hi" 0) c4llm "2026-02-26" "cats").answer =
      some noRecordSentinel ∧
    think_and_reply emptyDB c4llm 0 "hi" "u" =
      ⟨⟨[⟨0, "u", "user", "hi", 0, false⟩,
         ⟨1, "u", "assistant", "[RECALL|2027-01-01|dogs]", 0, false⟩], []⟩,
       some "[RECALL|2027-01-01|dogs]", [("2026-02-26", "cats")],
       ["[00:00] hi\nhi",
        "[00:00] hi\nhi\n[RECALL|2026-02-26|cats]\n【打捞结果汇报】：\n（未发现当天的原始记录）\n请结合此结果对用户做出最终回复。"]⟩ :=
  ⟨rfl, rfl, rfl,
    c4_directive_single_hop emptyDB c4llm 0 "hi" "u" "[RECALL|2026-02-26|cats]" "2026-02-26"
      "cats" noRecordSentinel "[RECALL|2027-01-01|dogs]" rfl rfl rfl rfl⟩

/-- **C5, counterexample.**  The claim says a query containing `|` breaks the
parse, so the text is not recognized as a directive and no recall is performed.
In fact the directive is recognized — `(.*?)` matches the pipe — and the
Investigator is invoked with the full query `a|b`. -/
theorem c5_counterexample :
    searchRecall "[RECALL|2026-02-26|a|b]" = some ("2026-02-26", "a|b") ∧
    (think_and_reply emptyDB c5llm 0 "hi" "u").recalls = [("2026-02-26", "a|b")] ∧
    (think_and_reply emptyDB c5llm 0 "hi" "u").reply = some "[RECALL|2026-02-26|a|b]" :=
  ⟨rfl, rfl, rfl⟩

theorem matchQueryCL_closed (cs : List Char) (h : ∀ c ∈ cs, c ≠ ']' ∧ c ≠ '\n') :
    matchQueryCL (cs ++ [']']) = some cs := by
  induction cs with
  | nil => rfl
  | cons c rest ih =>
    have hc := h c (by simp)
    rw [List.cons_append]
    unfold matchQueryCL
    rw [if_neg hc.1, if_neg hc.2, ih (fun x hx => h x (by simp [hx]))]
    rfl

theorem string_mk_data (s : String) : String.mk s.data = s := rfl

theorem matchRecallAt_concrete (cs : List Char) :
    matchRecallAt ("[RECALL|2026-02-26|".data ++ cs) =
      (matchQueryCL cs).bind (fun qq => some ("2026-02-26", String.mk qq)) := rfl

/-- **C5, amended.**  A query containing `|` does not break the parse: the lazy
wildcard matches the pipe like any other character, so the directive is
recognized with the pipe kept inside the captured query (the query is instead
terminated by the first `]` and cannot span a newline). -/
theorem c5_amended_pipe_query_parses (q : String) (hpipe : '|' ∈ q.data)
    (hq : ∀ c ∈ q.data, c ≠ ']' ∧ c ≠ '\n') :
    searchRecall ("[RECALL|2026-02-26|" ++ q ++ "]") = some ("2026-02-26", q) := by
  have hdata : ("[RECALL|2026-02-26|" ++ q ++ "]").data =
      "[RECALL|2026-02-26|".data ++ (q.data ++ [']']) := by
    simp [String.data_append]
  have hmatch : matchRecallAt ("[RECALL|2026-02-26|".data ++ (q.data ++ [']'])) =
      some ("2026-02-26", q) := by
    rw [matchRecallAt_concrete, matchQueryCL_closed q.data hq, Option.some_bind,
      string_mk_data]
  unfold searchRecall
  rw [hdata]
  show searchRecallAux ('[' :: ("RECALL|2026-02-26|".data ++ (q.data ++ [']']))) = _
  unfold searchRecallAux
  rw [show '[' :: ("RECALL|2026-02-26|".data ++ (q.data ++ [']'])) =
      "[RECALL|2026-02-26|".data ++ (q.data ++ [']']) from rfl]
  rw [hmatch]

theorem c5_witness :
    '|' ∈ ("a|b" : String).data ∧
    (∀ c ∈ ("a|b" : String).data, c ≠ ']' ∧ c ≠ '\n') ∧
    searchRecall ("[RECALL|2026-02-26|" ++ "a|b" ++ "]") = some ("2026-02-26", "a|b") :=
  ⟨by decide, by decide,
    c5_amended_pipe_query_parses "a|b" (by decide) (by decide)⟩

/-- **C6, counterexample.**  `[RECALL|2026-13-45|x]` is not a directive with a
valid ISO calendar date, yet it is not treated as ordinary text: the regex
matches the digit shape, recall is triggered, the date parse raises, and the
turn ends in an error with no assistant turn stored. -/
theorem c6_counterexample :
    (think_and_reply emptyDB c6llm 0 "hi" "u").reply = none ∧
    (think_and_reply emptyDB c6llm 0 "hi" "u").recalls = [("2026-13-45", "x")] ∧
    (think_and_reply emptyDB c6llm 0 "hi" "u").state =
      ⟨[⟨0, "u", "user", "hi", 0, false⟩], []⟩ :=
  ⟨rfl, rfl, rfl⟩

/-- **C6, amended.**  A reasoning output on which the directive regex finds no
match — wrong date digit-shape such as `26-02-2026`, missing pipe, wrong case —
is treated as ordinary text: no recall, stored verbatim as the assistant turn
and returned without error.  (A regex-shaped match whose date digits are not a
valid calendar date is, however, treated as a directive, and the date parse
then raises — see the counterexample.) -/
theorem c6_amended_shape_mismatch_plain_text (st : DBState) (llm : String → Option String)
    (now : Int) (input uid reply1 : String)
    (h1 : llm (joinContents (buildMessages (add_chat st uid "user" input now) uid input now)) =
      some reply1)
    (h2 : searchRecall reply1 = none) :
    think_and_reply st llm now input uid =
      ⟨add_chat (add_chat st uid "user" input now) uid "assistant" reply1 now,
       some reply1, [],
       [joinContents (buildMessages (add_chat st uid "user" input now) uid input now)]⟩ ∧
    searchRecall "[RECALL|26-02-2026|cats]" = none :=
  ⟨by simp only [think_and_reply, h1, h2], rfl⟩

theorem c6_witness :
    c6llmOk (joinContents (buildMessages (add_chat emptyDB "u" "user" "hi" 0) "u" "hi" 0)) =
      some "[RECALL|26-02-2026|cats]" ∧
    searchRecall "[RECALL|26-02-2026|cats]" = none ∧
    (think_and_reply emptyDB c6llmOk 0 "hi" "u" =
      ⟨add_chat (add_chat emptyDB "u" "user" "hi" 0) "u" "assistant" "[RECALL|26-02-2026|cats]" 0,
       some "[RECALL|26-02-2026|cats]", [],
       [joinContents (buildMessages (add_chat emptyDB "u" "user" "hi" 0) "u" "hi" 0)]⟩ ∧
     searchRecall "[RECALL|26-02-2026|cats]" = none) :=
  ⟨rfl, rfl, c6_amended_shape_mismatch_plain_text emptyDB c6llmOk 0 "hi" "u"
    "[RECALL|26-02-2026|cats]" rfl rfl⟩

theorem insertTs_append_max (x t : ChatTurn) (s : List ChatTurn)
    (h : x.timestamp ≤ t.timestamp) :
    insertTs x (s ++ [t]) = insertTs x s ++ [t] := by
  induction s with
  | nil =>
    show insertTs x [t] = insertTs x [] ++ [t]
    unfold insertTs
    rw [if_neg (by omega)]
    rfl
  | cons y ys ih =>
    show insertTs x (y :: (ys ++ [t])) = insertTs x (y :: ys) ++ [t]
    unfold insertTs
    by_cases hc : y.timestamp < x.timestamp
    · rw [if_pos hc, if_pos hc, ih]
      rfl
    · rw [if_neg hc, if_neg hc]
      rfl

theorem sortTs_append_max (t : ChatTurn) (l : List ChatTurn)
    (h : ∀ x ∈ l, x.timestamp ≤ t.timestamp) :
    sortTs (l ++ [t]) = sortTs l ++ [t] := by
  induction l with
  | nil => rfl
  | cons x xs ih =>
    show insertTs x (sortTs (xs ++ [t])) = insertTs x (sortTs xs) ++ [t]
    rw [ih (fun y hy => h y (List.mem_cons_of_mem x hy))]
    exact insertTs_append_max x t (sortTs xs) (h x (List.mem_cons_self x xs))

/-- **C10.**  `think_and_reply` records the user's message before rendering
history, so (with a monotone clock) the first reasoning prompt contains the new
user message twice: the rendered history ends with it time-tagged `[HH:MM]`
(it is the newest of the 30 most recent turns), and the context ends with it
again verbatim. -/
theorem c10_user_message_twice (st : DBState) (uid input : String) (now : Int)
    (hclock : ∀ t ∈ st.logs, t.timestamp ≤ now) :
    (buildMessages (add_chat st uid "user" input now) uid input now).getLast? =
      some ⟨"user", input⟩ ∧
    (get_formatted_history (add_chat st uid "user" input now) uid 30 now).getLast? =
      some ⟨"user", "[" ++ fmtHM now ++ "] " ++ input⟩ ∧
    ∀ llm : String → Option String,
      (think_and_reply st llm now input uid).prompts.head? =
        some (joinContents (buildMessages (add_chat st uid "user" input now) uid input now)) := by
  have hfil : (add_chat st uid "user" input now).logs.filter (fun t => t.user_id = uid) =
      st.logs.filter (fun t => t.user_id = uid) ++
        [⟨st.logs.length, uid, "user", input, now, false⟩] := by
    simp [add_chat, List.filter_append]
  have hsort : sortTs ((add_chat st uid "user" input now).logs.filter
        (fun t => t.user_id = uid)) =
      sortTs (st.logs.filter (fun t => t.user_id = uid)) ++
        [⟨st.logs.length, uid, "user", input, now, false⟩] := by
    rw [hfil]
    exact sortTs_append_max _ _ (fun x hx => hclock x (List.mem_of_mem_filter hx))
  have hrecent : get_recent_history (add_chat st uid "user" input now) uid 30 =
      ⟨st.logs.length, uid, "user", input, now, false⟩ ::
        ((sortTs (st.logs.filter (fun t => t.user_id = uid))).reverse.take 29) := by
    unfold get_recent_history
    rw [hsort, List.reverse_append]
    rfl
  have hhist : get_formatted_history (add_chat st uid "user" input now) uid 30 now =
      ((sortTs (st.logs.filter (fun t => t.user_id = uid))).reverse.take 29).reverse.map
        (fun row =>
          ⟨row.role, "[" ++ (if dayIndex row.timestamp = dayIndex now then fmtHM row.timestamp
            else fmtMDHM row.timestamp) ++ "] " ++ row.content⟩) ++
      [⟨"user", "[" ++ fmtHM now ++ "] " ++ input⟩] := by
    unfold get_formatted_history
    rw [hrecent, List.reverse_cons, List.map_append]
    simp
  refine ⟨?_, ?_, ?_⟩
  · unfold buildMessages
    exact List.getLast?_concat _
  · rw [hhist]
    exact List.getLast?_concat _
  · intro llm
    simp only [think_and_reply]
    split
    · rfl
    · split
      · rfl
      · split
        · rfl
        · split
          · rfl
          · rfl

theorem c10_witness :
    (∀ t ∈ (emptyDB : DBState).logs, t.timestamp ≤ (0 : Int)) ∧
    ((buildMessages (add_chat emptyDB "u" "user" "hi" 0) "u" "hi" 0).getLast? =
        some ⟨"user", "hi"⟩ ∧
      (get_formatted_history (add_chat emptyDB "u" "user" "hi" 0) "u" 30 0).getLast? =
        some ⟨"user", "[" ++ fmtHM 0 ++ "] " ++ "hi"⟩ ∧
      ∀ llm : String → Option String,
        (think_and_reply emptyDB llm 0 "hi" "u").prompts.head? =
          some (joinContents (buildMessages (add_chat emptyDB "u" "user" "hi" 0) "u" "hi" 0))) :=
  ⟨by intro t ht; simp [emptyDB] at ht,
    c10_user_message_twice emptyDB "u" "hi" 0 (by intro t ht; simp [emptyDB] at ht)⟩

/-- **C1, counterexample.**  With 32 uncompacted turns already stored,
`think_and_reply` (the `processTurn` entry point) leaves every turn uncompacted
— it never invokes the Historian trigger check — even though the check, run on
its result state (34 uncompacted turns), would compact 32 turns.  The trigger
check is issued by the demo `main` loop instead. -/
theorem c1_counterexample :
    (think_and_reply sample32 llmOk 2000 "hi" DEFAULT_USER).state.logs.countP
        (fun t => t.summarized) = 0 ∧
    (get_unsummarized_logs (think_and_reply sample32 llmOk 2000 "hi" DEFAULT_USER).state
        DEFAULT_USER).length = 34 ∧
    (try_summarize (think_and_reply sample32 llmOk 2000 "hi" DEFAULT_USER).state llmOk
        DEFAULT_USER).1.logs.countP (fun t => t.summarized) = 32 :=
  ⟨rfl, rfl, rfl⟩

/-- **C1, amended.**  The Historian trigger check runs in the demo `main` loop
after `processTurn` has returned (and its reply printed); consequently neither
the check nor its failure can change `processTurn`'s return value, and
`processTurn` itself writes no summary and flips no compaction flag. -/
theorem c1_amended_compaction_after_turn (st : DBState) (llm : String → Option String)
    (now : Int) (input : String) :
    (main_turn st llm now input).1 = (think_and_reply st llm now input DEFAULT_USER).reply ∧
    (think_and_reply st llm now input DEFAULT_USER).state.summaries = st.summaries ∧
    ∀ t ∈ st.logs, t ∈ (think_and_reply st llm now input DEFAULT_USER).state.logs := by
  refine ⟨?_, ?_, ?_⟩
  · simp only [main_turn]
    split
    · next heq => exact heq.symm
    · next rep heq => exact heq.symm
  · simp only [think_and_reply]
    split
    · rfl
    · split
      · rfl
      · split
        · rfl
        · split
          · rfl
          · rfl
  · intro t ht
    simp only [think_and_reply]
    split
    · simp [add_chat]; tauto
    · split
      · simp [add_chat]; tauto
      · split
        · simp [add_chat]; tauto
        · split
          · simp [add_chat]; tauto
          · simp [add_chat]; tauto

theorem get_unsummarized_length (st : DBState) (u : String) :
    (get_unsummarized_logs st u).length = uncompactedCount st u := by
  unfold get_unsummarized_logs uncompactedCount
  rw [(sortTs_perm _).length_eq, List.countP_eq_length_filter]

theorem mem_sortTs (t : ChatTurn) (l : List ChatTurn) : t ∈ sortTs l ↔ t ∈ l :=
  (sortTs_perm l).mem_iff

theorem mem_unsummarized (st : DBState) (u0 : String) (b : ChatTurn)
    (hb : b ∈ get_unsummarized_logs st u0) :
    b ∈ st.logs ∧ b.user_id = u0 ∧ b.summarized = false := by
  unfold get_unsummarized_logs at hb
  rw [mem_sortTs] at hb
  have h := List.mem_filter.mp hb
  have h2 := h.2
  simp only [Bool.and_eq_true, decide_eq_true_eq, Bool.not_eq_true'] at h2
  exact ⟨h.1, h2.1, h2.2⟩

theorem countP_marked_total (l : List ChatTurn) (ids : List Nat) (u : String) :
    (l.map (markT ids)).countP (fun t => t.user_id = u) =
      l.countP (fun t => t.user_id = u) := by
  induction l with
  | nil => rfl
  | cons x xs ih =>
    simp only [List.map_cons, List.countP_cons, ih]
    congr 1
    by_cases h : x.id ∈ ids <;> simp [markT, h]

theorem markT_pred (ids : List Nat) (u : String) (t : ChatTurn) :
    (decide ((markT ids t).user_id = u) && !(markT ids t).summarized) =
      ((decide (t.user_id = u) && !t.summarized) && !decide (t.id ∈ ids)) := by
  unfold markT
  by_cases h : t.id ∈ ids <;> simp [h]

theorem countP_marked_unc (l : List ChatTurn) (ids : List Nat) (u : String) :
    (l.map (markT ids)).countP (fun t => t.user_id = u && !t.summarized) =
      (l.filter (fun t => t.user_id = u && !t.summarized)).countP
        (fun t => !decide (t.id ∈ ids)) := by
  rw [List.countP_map]
  have h1 : l.countP ((fun t => decide (t.user_id = u) && !t.summarized) ∘ markT ids) =
      l.countP (fun t => (decide (t.user_id = u) && !t.summarized) && !decide (t.id ∈ ids)) :=
    List.countP_congr (fun a _ => by
      show (decide ((markT ids a).user_id = u) && !(markT ids a).summarized) = true ↔ _
      rw [markT_pred])
  rw [h1, List.countP_filter]
  exact List.countP_congr (fun a _ => by rw [Bool.and_comm])

theorem idsOK_add (st : DBState) (u role content : String) (now : Int) (h : idsOK st) :
    idsOK (add_chat st u role content now) := by
  obtain ⟨hb, hn⟩ := h
  constructor
  · intro t ht
    simp only [add_chat, List.mem_append, List.length_append, List.length_cons,
      List.length_nil, List.mem_singleton] at ht ⊢
    rcases ht with ht | rfl
    · have := hb t ht; omega
    · simp
  · simp only [add_chat, List.map_append, List.map_cons, List.map_nil]
    rw [List.nodup_append]
    refine ⟨hn, List.nodup_singleton _, ?_⟩
    intro a ha hmem
    simp only [List.mem_singleton] at hmem
    obtain ⟨t, ht, rfl⟩ := List.mem_map.mp ha
    have := hb t ht
    omega

theorem idsOK_mark (st : DBState) (ids : List Nat) (h : idsOK st) :
    idsOK (mark_summarized st ids) := by
  obtain ⟨hb, hn⟩ := h
  constructor
  · intro t ht
    rw [mark_summarized_logs] at ht
    obtain ⟨t0, ht0, rfl⟩ := List.mem_map.mp ht
    rw [mark_summarized_logs, List.length_map, markT_id]
    exact hb t0 ht0
  · rw [mark_summarized_logs, List.map_map]
    have hfe : ((fun t : ChatTurn => t.id) ∘ markT ids) = fun t : ChatTurn => t.id := by
      funext t; exact markT_id ids t
    rw [hfe]
    exact hn

theorem unsummarized_map_id_nodup (st : DBState) (u0 : String)
    (hn : (st.logs.map (fun t => t.id)).Nodup) :
    ((get_unsummarized_logs st u0).map (fun t => t.id)).Nodup := by
  have hsub : List.Sublist
      ((st.logs.filter (fun t => t.user_id = u0 && !t.summarized)).map (fun t => t.id))
      (st.logs.map (fun t => t.id)) :=
    List.Sublist.map _ (List.filter_sublist _)
  have h1 := List.Nodup.sublist hsub hn
  exact (((sortTs_perm _).map (fun t => t.id)).nodup_iff).mpr h1

theorem idsOK_of_logs_eq (st st' : DBState) (h : st'.logs = st.logs) (hi : idsOK st) :
    idsOK st' := by
  obtain ⟨ha, hb⟩ := hi
  constructor
  · rw [h]; exact ha
  · rw [h]; exact hb

theorem marked_inv (st0 st1 : DBState) (u0 : String)
    (hlogs1 : st1.logs = st0.logs)
    (hids : idsOK st0)
    (hcnt : ∀ u, min (totalTurns st0 u) 2 ≤ uncompactedCount st0 u)
    (hlen : 2 ≤ (get_unsummarized_logs st0 u0).length) :
    idsOK (mark_summarized st1
        ((pySliceToMinus2 (get_unsummarized_logs st0 u0)).map (fun l => l.id))) ∧
    ∀ u, min (totalTurns (mark_summarized st1
          ((pySliceToMinus2 (get_unsummarized_logs st0 u0)).map (fun l => l.id))) u) 2 ≤
        uncompactedCount (mark_summarized st1
          ((pySliceToMinus2 (get_unsummarized_logs st0 u0)).map (fun l => l.id))) u := by
  have hmlogs : (mark_summarized st1
      ((pySliceToMinus2 (get_unsummarized_logs st0 u0)).map (fun l => l.id))).logs =
      st0.logs.map (markT ((pySliceToMinus2 (get_unsummarized_logs st0 u0)).map
        (fun l => l.id))) := by
    rw [mark_summarized_logs, hlogs1]
  constructor
  · refine idsOK_of_logs_eq (mark_summarized st0
      ((pySliceToMinus2 (get_unsummarized_logs st0 u0)).map (fun l => l.id))) _ ?_
      (idsOK_mark st0 _ hids)
    rw [hmlogs, mark_summarized_logs]
  · intro u
    have hT : totalTurns (mark_summarized st1
        ((pySliceToMinus2 (get_unsummarized_logs st0 u0)).map (fun l => l.id))) u =
        totalTurns st0 u := by
      unfold totalTurns
      rw [hmlogs, countP_marked_total]
    have hU : uncompactedCount (mark_summarized st1
        ((pySliceToMinus2 (get_unsummarized_logs st0 u0)).map (fun l => l.id))) u =
        (st0.logs.filter (fun t => t.user_id = u && !t.summarized)).countP
          (fun t => !decide (t.id ∈
            (pySliceToMinus2 (get_unsummarized_logs st0 u0)).map (fun l => l.id))) := by
      unfold uncompactedCount
      rw [hmlogs, countP_marked_unc]
    rw [hT, hU]
    by_cases hu : u = u0
    · subst hu
      have hperm : List.Perm (st0.logs.filter (fun t => t.user_id = u && !t.summarized))
          (get_unsummarized_logs st0 u) := (sortTs_perm _).symm
      rw [hperm.countP_eq]
      have hnodup : ((get_unsummarized_logs st0 u).map (fun t => t.id)).Nodup :=
        unsummarized_map_id_nodup st0 u hids.2
      have hsplit : get_unsummarized_logs st0 u =
          pySliceToMinus2 (get_unsummarized_logs st0 u) ++
            (get_unsummarized_logs st0 u).drop ((get_unsummarized_logs st0 u).length - 2) := by
        unfold pySliceToMinus2
        rw [List.take_append_drop]
      have hdisj : ∀ k ∈ (get_unsummarized_logs st0 u).drop
            ((get_unsummarized_logs st0 u).length - 2),
          k.id ∉ (pySliceToMinus2 (get_unsummarized_logs st0 u)).map (fun l => l.id) := by
        intro k hk hkin
        have hmapsplit : (get_unsummarized_logs st0 u).map (fun t => t.id) =
            (pySliceToMinus2 (get_unsummarized_logs st0 u)).map (fun t => t.id) ++
              ((get_unsummarized_logs st0 u).drop
                ((get_unsummarized_logs st0 u).length - 2)).map (fun t => t.id) := by
          conv_lhs => rw [hsplit]
          rw [List.map_append]
        rw [hmapsplit] at hnodup
        exact List.disjoint_of_nodup_append hnodup hkin (List.mem_map_of_mem _ hk)
      have hkeptlen : ((get_unsummarized_logs st0 u).drop
          ((get_unsummarized_logs st0 u).length - 2)).length = 2 := by
        rw [List.length_drop]; omega
      have hkeptfull : ((get_unsummarized_logs st0 u).drop
            ((get_unsummarized_logs st0 u).length - 2)).countP
          (fun t => !decide (t.id ∈
            (pySliceToMinus2 (get_unsummarized_logs st0 u)).map (fun l => l.id))) = 2 := by

        refine Eq.trans (List.countP_eq_length.mpr ?_) hkeptlen
        intro a ha
        simp only [Bool.not_eq_true', decide_eq_false_iff_not]
        exact hdisj a ha
      have hcnteq := congrArg (List.countP (fun t : ChatTurn => !decide (t.id ∈
        (pySliceToMinus2 (get_unsummarized_logs st0 u)).map (fun l => l.id)))) hsplit
      rw [List.countP_append] at hcnteq
      have hcount2 : 2 ≤ (get_unsummarized_logs st0 u).countP
          (fun t => !decide (t.id ∈
            (pySliceToMinus2 (get_unsummarized_logs st0 u)).map (fun l => l.id))) := by
        rw [hcnteq, hkeptfull]
        omega
      exact le_trans (min_le_right _ 2) hcount2
    · have hall : ∀ t ∈ st0.logs.filter (fun t => t.user_id = u && !t.summarized),
          (fun t : ChatTurn => !decide (t.id ∈
            (pySliceToMinus2 (get_unsummarized_logs st0 u0)).map (fun l => l.id))) t = true := by
        intro t ht
        have htm := List.mem_filter.mp ht
        have htu : t.user_id = u := by
          have h2 := htm.2
          simp only [Bool.and_eq_true, decide_eq_true_eq] at h2
          exact h2.1
        simp only [Bool.not_eq_true', decide_eq_false_iff_not]
        intro hkin
        obtain ⟨b, hbmem, hbid⟩ := List.mem_map.mp hkin
        have hbl : b ∈ get_unsummarized_logs st0 u0 :=
          List.take_subset _ _ hbmem
        have hbprop := mem_unsummarized st0 u0 b hbl
        have hbt : b = t :=
          List.inj_on_of_nodup_map hids.2 hbprop.1 htm.1 hbid
        rw [hbt] at hbprop
        exact hu (hbprop.2.1 ▸ htu.symm) |>.elim
      have heq : (st0.logs.filter (fun t => t.user_id = u && !t.summarized)).countP
          (fun t => !decide (t.id ∈
            (pySliceToMinus2 (get_unsummarized_logs st0 u0)).map (fun l => l.id))) =
          (st0.logs.filter (fun t => t.user_id = u && !t.summarized)).length :=
        List.countP_eq_length.mpr hall
      rw [heq, ← List.countP_eq_length_filter]
      exact hcnt u

theorem reachable_inv (st : DBState) (h : Reachable st) :
    idsOK st ∧ ∀ u, min (totalTurns st u) 2 ≤ uncompactedCount st u := by
  induction h with
  | init =>
    refine ⟨⟨?_, ?_⟩, ?_⟩
    · intro t ht; simp [emptyDB] at ht
    · simp [emptyDB]
    · intro u; simp [totalTurns, uncompactedCount, emptyDB]
  | add st0 u0 role content now hr ih =>
    obtain ⟨hids, hcnt⟩ := ih
    refine ⟨idsOK_add st0 u0 role content now hids, ?_⟩
    intro u
    have hT : totalTurns (add_chat st0 u0 role content now) u =
        totalTurns st0 u + (if u0 = u then 1 else 0) := by
      unfold totalTurns add_chat
      rw [List.countP_append]
      congr 1
      by_cases hu : u0 = u <;> simp [hu]
    have hU : uncompactedCount (add_chat st0 u0 role content now) u =
        uncompactedCount st0 u + (if u0 = u then 1 else 0) := by
      unfold uncompactedCount add_chat
      rw [List.countP_append]
      congr 1
      by_cases hu : u0 = u <;> simp [hu]
    have hc := hcnt u
    rw [hT, hU]
    by_cases hu : u0 = u <;> simp [hu] <;> omega
  | compact st0 llm u0 hr ih =>
    obtain ⟨hids, hcnt⟩ := ih
    by_cases hcond : SUMMARIZE_THRESHOLD + 2 ≤ (get_unsummarized_logs st0 u0).length
    · cases hb : pySliceToMinus2 (get_unsummarized_logs st0 u0) with
      | nil =>
        exfalso
        have hlb := pySliceToMinus2_length (get_unsummarized_logs st0 u0)
        rw [hb] at hlb
        simp only [List.length_nil] at hlb
        unfold SUMMARIZE_THRESHOLD at hcond
        omega
      | cons l0 rest =>
        have hts : try_summarize st0 llm u0 = run_historian_ai st0 llm (l0 :: rest) := by
          unfold try_summarize
          rw [if_pos hcond, hb]
        cases hllm : llm (historianPrompt (fmtDateCN l0.timestamp) (l0 :: rest)) with
        | none =>
          have hrn : run_historian_ai st0 llm (l0 :: rest) = (st0, false) := by
            simp only [run_historian_ai, hllm]
          rw [hts, hrn]
          exact ⟨hids, hcnt⟩
        | some out =>
          rw [hts, run_historian_eq st0 llm l0 rest out hllm]
          have hlogs1 : (if containsSub out noEventMark = true then st0
              else save_summary st0 (fmtDateCN l0.timestamp) out).logs = st0.logs := by
            by_cases hc : containsSub out noEventMark = true <;> simp [hc, save_summary_logs]
          have hm := marked_inv st0
            (if containsSub out noEventMark = true then st0
             else save_summary st0 (fmtDateCN l0.timestamp) out) u0 hlogs1 hids hcnt
            (by unfold SUMMARIZE_THRESHOLD at hcond; omega)
          rw [hb] at hm
          exact hm
    · have : try_summarize st0 llm u0 = (st0, true) := by
        unfold try_summarize
        rw [if_neg hcond]
      rw [this]
      exact ⟨hids, hcnt⟩

/-- **C3.**  In every reachable Log Store state, once a user has at least 2
recorded turns, at least 2 of that user's turns still have `compacted = false`:
every compaction batch excludes the final 2 uncompacted turns, and no other
reachable operation sets the flag. -/
theorem c3_soft_landing_floor (st : DBState) (h : Reachable st) (u : String)
    (htotal : 2 ≤ totalTurns st u) : 2 ≤ uncompactedCount st u := by
  have hinv := (reachable_inv st h).2 u
  rw [min_eq_right htotal] at hinv
  exact hinv

theorem c3_witness :
    Reachable reachablePair ∧ 2 ≤ totalTurns reachablePair "u" ∧
      2 ≤ uncompactedCount reachablePair "u" :=
  ⟨Reachable.add _ "u" "assistant" "ok" 1 (Reachable.add _ "u" "user" "hi" 0 Reachable.init),
   by decide,
   c3_soft_landing_floor reachablePair
     (Reachable.add _ "u" "assistant" "ok" 1 (Reachable.add _ "u" "user" "hi" 0 Reachable.init))
     "u" (by decide)⟩
